import Mathlib

/-!
Verification of the `meta-client` composite client
(`src/meta-client/src/client.rs` of greptimedb): the `MetaClientBuilder`
activation logic, the `MetaClient` accessors, `start`, and the dispatch of
domain operations, together with spec-modelled semantics of the remote
key-value store (CompareAndPut, MoveValue) and of the route service
(delete_route), which live outside the embedded file.
-/

set_option autoImplicit false

namespace MetaClientSpec

/-- Embeds `pub type Id = (u64, u64);` (client.rs:42).  No arithmetic is performed on
ids, so they are embedded as a pair of naturals. -/
abbrev Id := Nat × Nat

/-- Modelled from the spec: `Role` is an external closed enum of client
classes (spec §3: "closed set of client classes (e.g. data-node, frontend)");
its definition (`api::v1::meta::Role`) is not part of the embedded file. -/
inductive Role where
  | datanode
  | frontend
deriving DecidableEq

instance : Inhabited Role := ⟨Role.datanode⟩

/-- Modelled from the spec: the connection provider handle
(`common_grpc::channel_manager::ChannelManager`) is an external collaborator
(spec §2); only its presence and its default construction matter here. -/
structure ChannelManager where
  config : Nat := 0
deriving DecidableEq

instance : Inhabited ChannelManager := ⟨{}⟩

/-- Modelled from the spec (§7, error kinds): the error type of the crate
(`crate::error`) is not part of the embedded file.  `NotStarted` carries the
`name` string the accessors pass to `NotStartedSnafu` in client.rs. -/
inductive MetaError where
  | notStarted (name : String)
  | conversionError
  | transportError
deriving DecidableEq

/-- Modelled from the spec (§3, protocol state): each protocol sub-client
(the `heartbeat`, `router`, `store`, `lock` modules are not part of the
embedded file) holds the construction arguments `(id, role, channel
manager)` and a state `{NotStarted, Started(server-binding)}`;
`started = some urls` is `Started` bound to the endpoint list `urls`. -/
structure SubClient where
  id : Id
  role : Role
  channel_manager : ChannelManager
  started : Option (List String) := none
deriving DecidableEq

/-- Embeds `Client::new(id, role, mgr)` of each sub-client module, as invoked by
`MetaClientBuilder::build` (client.rs:113-122): a fresh, not-started
sub-client. -/
def SubClient.new (id : Id) (role : Role) (mgr : ChannelManager) : SubClient :=
  { id := id, role := role, channel_manager := mgr }

/-- Embeds `pub struct MetaClient` (client.rs:129-137). -/
structure MetaClient where
  id : Id
  channel_manager : ChannelManager
  heartbeat : Option SubClient
  router : Option SubClient
  store : Option SubClient
  lock : Option SubClient
deriving DecidableEq

/-- Embeds `MetaClient::new` (client.rs:140-145): only `id` is set, the rest is
`Default::default()` (no sub-client enabled). -/
def MetaClient.new (id : Id) : MetaClient :=
  { id := id, channel_manager := default,
    heartbeat := none, router := none, store := none, lock := none }

/-- Embeds `MetaClient::with_channel_manager` (client.rs:147-153). -/
def MetaClient.with_channel_manager (id : Id) (channel_manager : ChannelManager) :
    MetaClient :=
  { id := id, channel_manager := channel_manager,
    heartbeat := none, router := none, store := none, lock := none }

/-- Embeds `pub struct MetaClientBuilder` (client.rs:44-53).  Field names are
those of the source; the builder methods carry a prime because Lean does not allow a
method and a field of a structure to share a name. -/
structure MetaClientBuilder where
  id : Id
  role : Role
  enable_heartbeat : Bool
  enable_router : Bool
  enable_store : Bool
  enable_lock : Bool
  channel_manager : Option ChannelManager
deriving DecidableEq

/-- Embeds `MetaClientBuilder::new(cluster_id, member_id, role)` (client.rs:56-62):
sets `id` and `role`, everything else `Default::default()`. -/
def MetaClientBuilder.new (cluster_id member_id : Nat) (role : Role) :
    MetaClientBuilder :=
  { id := (cluster_id, member_id), role := role,
    enable_heartbeat := false, enable_router := false,
    enable_store := false, enable_lock := false,
    channel_manager := none }

/-- Embeds `MetaClientBuilder::enable_heartbeat` (client.rs:64-69). -/
def MetaClientBuilder.enable_heartbeat' (b : MetaClientBuilder) : MetaClientBuilder :=
  { b with enable_heartbeat := true }

/-- Embeds `MetaClientBuilder::enable_router` (client.rs:71-76). -/
def MetaClientBuilder.enable_router' (b : MetaClientBuilder) : MetaClientBuilder :=
  { b with enable_router := true }

/-- Embeds `MetaClientBuilder::enable_store` (client.rs:78-83). -/
def MetaClientBuilder.enable_store' (b : MetaClientBuilder) : MetaClientBuilder :=
  { b with enable_store := true }

/-- Embeds `MetaClientBuilder::enable_lock` (client.rs:85-90). -/
def MetaClientBuilder.enable_lock' (b : MetaClientBuilder) : MetaClientBuilder :=
  { b with enable_lock := true }

/-- Embeds `MetaClientBuilder::channel_manager` (client.rs:92-97). -/
def MetaClientBuilder.channel_manager' (b : MetaClientBuilder) (mgr : ChannelManager) :
    MetaClientBuilder :=
  { b with channel_manager := some mgr }

/-- Embeds `MetaClientBuilder::build` (client.rs:99-127).  The source first
constructs the inner `MetaClient` (choosing `with_channel_manager` or `new`),
then panics when no protocol was enabled — `none` embeds the panic, so the
constructed client is never returned — and otherwise installs one fresh
sub-client per enabled protocol. -/
def MetaClientBuilder.build (b : MetaClientBuilder) : Option MetaClient :=
  let client :=
    match b.channel_manager with
    | some mgr => MetaClient.with_channel_manager b.id mgr
    | none => MetaClient.new b.id
  if !(b.enable_heartbeat || b.enable_router || b.enable_store || b.enable_lock) then
    none
  else
    let mgr := client.channel_manager
    let client :=
      if b.enable_heartbeat then
        { client with heartbeat := some (SubClient.new b.id b.role mgr) }
      else client
    let client :=
      if b.enable_router then
        { client with router := some (SubClient.new b.id b.role mgr) }
      else client
    let client :=
      if b.enable_store then
        { client with store := some (SubClient.new b.id b.role mgr) }
      else client
    let client :=
      if b.enable_lock then
        { client with lock := some (SubClient.new b.id b.role mgr) }
      else client
    some client

/-- The four protocols of the composite client (spec §3, ActivationSet). -/
inductive Protocol where
  | heartbeat
  | router
  | store
  | lock
deriving DecidableEq

/-- The sub-client slot of a protocol inside a `MetaClient`. -/
def MetaClient.sub (c : MetaClient) : Protocol → Option SubClient
  | Protocol.heartbeat => c.heartbeat
  | Protocol.router => c.router
  | Protocol.store => c.store
  | Protocol.lock => c.lock

/-- A protocol is activated when its slot holds a sub-client. -/
def MetaClient.activated (c : MetaClient) (p : Protocol) : Bool :=
  (c.sub p).isSome

/-- Embeds `MetaClient::heartbeat_client` (client.rs:337-342): clones the
`heartbeat` slot, or fails with `NotStarted { name: "heartbeat_client" }`. -/
def MetaClient.heartbeat_client (c : MetaClient) : Except MetaError SubClient :=
  match c.heartbeat with
  | some h => Except.ok h
  | none => Except.error (MetaError.notStarted "heartbeat_client")

/-- Embeds `MetaClient::router_client` (client.rs:344-349).  Note: the source passes
`name: "store_client"` to `NotStartedSnafu` here, not a router-identifying
name. -/
def MetaClient.router_client (c : MetaClient) : Except MetaError SubClient :=
  match c.router with
  | some r => Except.ok r
  | none => Except.error (MetaError.notStarted "store_client")

/-- Embeds `MetaClient::store_client` (client.rs:351-356). -/
def MetaClient.store_client (c : MetaClient) : Except MetaError SubClient :=
  match c.store with
  | some s => Except.ok s
  | none => Except.error (MetaError.notStarted "store_client")

/-- Embeds `MetaClient::lock_client` (client.rs:358-363). -/
def MetaClient.lock_client (c : MetaClient) : Except MetaError SubClient :=
  match c.lock with
  | some l => Except.ok l
  | none => Except.error (MetaError.notStarted "lock_client")

/-- The accessor through which the operations of a protocol resolve their sub-client. -/
def MetaClient.sub_accessor (c : MetaClient) : Protocol → Except MetaError SubClient
  | Protocol.heartbeat => c.heartbeat_client
  | Protocol.router => c.router_client
  | Protocol.store => c.store_client
  | Protocol.lock => c.lock_client

/-- One step of `MetaClient::start` (client.rs:162-178): `client.start(urls)`
on one optional sub-client slot.  A missing slot is skipped; on a present one
the start of the sub-client itself (external module code, outcome abstracted by
`res`) either binds it to `urls` (spec §3: NotStarted→Started) or fails. -/
def startSub (sub : Option SubClient) (res : Except MetaError Unit)
    (urls : List String) : Except MetaError (Option SubClient) :=
  match sub with
  | none => Except.ok none
  | some s =>
    match res with
    | Except.ok _ => Except.ok (some { s with started := some urls })
    | Except.error e => Except.error e

/-- Embeds `MetaClient::start` (client.rs:155-181): starts the activated
sub-clients in the fixed source order heartbeat, router, store, lock, each
against the same `urls`; `?` propagates the first failure, leaving the
already-updated slots in place (`&mut self`).  `netRes p` abstracts the
outcome of the start of sub-client `p`.  Returns the `Result<()>` together
with the client as mutated so far. -/
def MetaClient.start (c : MetaClient) (netRes : Protocol → Except MetaError Unit)
    (urls : List String) : Except MetaError Unit × MetaClient :=
  match startSub c.heartbeat (netRes Protocol.heartbeat) urls with
  | Except.error e => (Except.error e, c)
  | Except.ok hb =>
    let c := { c with heartbeat := hb }
    match startSub c.router (netRes Protocol.router) urls with
    | Except.error e => (Except.error e, c)
    | Except.ok r =>
      let c := { c with router := r }
      match startSub c.store (netRes Protocol.store) urls with
      | Except.error e => (Except.error e, c)
      | Except.ok st =>
        let c := { c with store := st }
        match startSub c.lock (netRes Protocol.lock) urls with
        | Except.error e => (Except.error e, c)
        | Except.ok l => (Except.ok (), { c with lock := l })

/-- The shared shape of every domain operation body (client.rs:185-335):
`self.xxx_client()?` followed by the remote call.  `run` stands for
everything past the accessor — request conversion where infallible, the
RPC, and response conversion, all external to the embedded file.  The `Bool`
records whether the network was reached: `false` on the error path of the accessor,
path, where `?` returns before any request is issued. -/
def dispatch {β : Type} (acc : Except MetaError SubClient)
    (run : Unit → Except MetaError β) : Except MetaError β × Bool :=
  match acc with
  | Except.error e => (Except.error e, false)
  | Except.ok _ => (run (), true)

/-- Embeds `MetaClient::ask_leader` (client.rs:185-187). -/
def MetaClient.ask_leader {β : Type} (c : MetaClient)
    (rpc : Unit → Except MetaError β) : Except MetaError β × Bool :=
  dispatch c.heartbeat_client rpc

/-- Embeds `MetaClient::heartbeat` (client.rs:195-197): on success yields the
(sender, stream) pair, abstracted by `β`. -/
def MetaClient.heartbeat' {β : Type} (c : MetaClient)
    (rpc : Unit → Except MetaError β) : Except MetaError β × Bool :=
  dispatch c.heartbeat_client rpc

/-- Embeds `MetaClient::create_route` (client.rs:205-212).  This is the one
operation whose request conversion (`req.try_into()` with
`ConvertMetaRequestSnafu`) is fallible and — in the source — runs BEFORE
`self.router_client()?`.  `convReq` models that external conversion
(spec §7, ConversionError: "a domain request could not be translated to
wire shape"); `none` is the conversion failure. -/
def MetaClient.create_route {ρ ω σ : Type} (c : MetaClient) (convReq : ρ → Option ω)
    (rpc : ω → Except MetaError σ) (req : ρ) : Except MetaError σ × Bool :=
  match convReq req with
  | none => (Except.error MetaError.conversionError, false)
  | some wreq => dispatch c.router_client (fun _ => rpc wreq)

/-- Embeds `MetaClient::route` (client.rs:233-239). -/
def MetaClient.route {ρ σ : Type} (c : MetaClient) (rpc : ρ → Except MetaError σ)
    (req : ρ) : Except MetaError σ × Bool :=
  dispatch c.router_client (fun _ => rpc req)

/-- Embeds `MetaClient::delete_route` (client.rs:244-250). -/
def MetaClient.delete_route {ρ σ : Type} (c : MetaClient)
    (rpc : ρ → Except MetaError σ) (req : ρ) : Except MetaError σ × Bool :=
  dispatch c.router_client (fun _ => rpc req)

/-- Embeds `MetaClient::range` (client.rs:253-259). -/
def MetaClient.range {ρ σ : Type} (c : MetaClient) (rpc : ρ → Except MetaError σ)
    (req : ρ) : Except MetaError σ × Bool :=
  dispatch c.store_client (fun _ => rpc req)

/-- Embeds `MetaClient::put` (client.rs:262-268). -/
def MetaClient.put {ρ σ : Type} (c : MetaClient) (rpc : ρ → Except MetaError σ)
    (req : ρ) : Except MetaError σ × Bool :=
  dispatch c.store_client (fun _ => rpc req)

/-- Embeds `MetaClient::batch_get` (client.rs:271-277). -/
def MetaClient.batch_get {ρ σ : Type} (c : MetaClient) (rpc : ρ → Except MetaError σ)
    (req : ρ) : Except MetaError σ × Bool :=
  dispatch c.store_client (fun _ => rpc req)

/-- Embeds `MetaClient::batch_put` (client.rs:280-286). -/
def MetaClient.batch_put {ρ σ : Type} (c : MetaClient) (rpc : ρ → Except MetaError σ)
    (req : ρ) : Except MetaError σ × Bool :=
  dispatch c.store_client (fun _ => rpc req)

/-- Embeds `MetaClient::batch_delete` (client.rs:289-295). -/
def MetaClient.batch_delete {ρ σ : Type} (c : MetaClient)
    (rpc : ρ → Except MetaError σ) (req : ρ) : Except MetaError σ × Bool :=
  dispatch c.store_client (fun _ => rpc req)

/-- Embeds `MetaClient::compare_and_put` (client.rs:299-308). -/
def MetaClient.compare_and_put {ρ σ : Type} (c : MetaClient)
    (rpc : ρ → Except MetaError σ) (req : ρ) : Except MetaError σ × Bool :=
  dispatch c.store_client (fun _ => rpc req)

/-- Embeds `MetaClient::delete_range` (client.rs:311-317). -/
def MetaClient.delete_range {ρ σ : Type} (c : MetaClient)
    (rpc : ρ → Except MetaError σ) (req : ρ) : Except MetaError σ × Bool :=
  dispatch c.store_client (fun _ => rpc req)

/-- Embeds `MetaClient::move_value` (client.rs:320-326). -/
def MetaClient.move_value {ρ σ : Type} (c : MetaClient)
    (rpc : ρ → Except MetaError σ) (req : ρ) : Except MetaError σ × Bool :=
  dispatch c.store_client (fun _ => rpc req)

/-- Embeds `MetaClient::lock` (client.rs:328-330). -/
def MetaClient.lock' {ρ σ : Type} (c : MetaClient) (rpc : ρ → Except MetaError σ)
    (req : ρ) : Except MetaError σ × Bool :=
  dispatch c.lock_client (fun _ => rpc req)

/-- Embeds `MetaClient::unlock` (client.rs:332-335). -/
def MetaClient.unlock {ρ σ : Type} (c : MetaClient) (rpc : ρ → Except MetaError σ)
    (req : ρ) : Except MetaError σ × Bool :=
  dispatch c.lock_client (fun _ => rpc req)

/-- Whether an `Except` is the `ok` variant. -/
def isOk {ε α : Type} : Except ε α → Bool
  | Except.ok _ => true
  | Except.error _ => false

/-- The `name` string each accessor passes to `NotStartedSnafu`
(client.rs:337-363).  For the router accessor the source passes the literal
`"store_client"`. -/
def accessor_error_name : Protocol → String
  | Protocol.heartbeat => "heartbeat_client"
  | Protocol.router => "store_client"
  | Protocol.store => "store_client"
  | Protocol.lock => "lock_client"

namespace KvBackend

/-- Byte sequences (keys and values of the remote store). -/
abbrev Bytes := List Nat

/-- Modelled from the spec: the state of the remote key-value store (spec §3,
KeyValueEntry: keys unique within the namespace; entries live only in the
remote service).  The store service itself (`meta-srv`) is not part of the
embedded file. -/
abbrev KvState := List (Bytes × Bytes)

/-- The value currently stored under `k`, if any (first matching entry;
keys are unique, spec §3). -/
def get : KvState → Bytes → Option Bytes
  | [], _ => none
  | e :: es, k => if e.1 = k then some e.2 else get es k

/-- Remove every entry keyed `k` (keys are unique, so at most one). -/
def del : KvState → Bytes → KvState
  | [], _ => []
  | e :: es, k => if e.1 = k then del es k else e :: del es k

/-- Bind `k` to `v`, replacing any previous binding. -/
def put (s : KvState) (k v : Bytes) : KvState :=
  (k, v) :: del s k

/-- Modelled from the spec: the outcome of CompareAndPut (spec §4.2): a
success flag plus the relevant previous/current value. -/
structure CasOutcome where
  success : Bool
  prev_kv : Option Bytes
deriving DecidableEq

/-- Modelled from the spec (§4.2, CompareAndPut): atomic conditional write —
"succeeds iff the stored value equals `expected` (or the key is absent, when
`expected` denotes absence)"; on success the previous value (if any) is
reported and the new value written; on failure the actual current value is
reported and the state left unchanged.  `expect = none` denotes expected
absence. -/
def compare_and_put (s : KvState) (k : Bytes) (expect : Option Bytes) (v : Bytes) :
    CasOutcome × KvState :=
  let cur := get s k
  if cur = expect then
    ({ success := true, prev_kv := cur }, put s k v)
  else
    ({ success := false, prev_kv := cur }, s)

/-- Modelled from the spec (§4.2, MoveValue): atomic relocation with
destination-wins semantics. -/
def move_value (s : KvState) (from_key to_key : Bytes) : Option Bytes × KvState :=
  match get s to_key with
  | some v => (some v, s)
  | none =>
    match get s from_key with
    | some v => (some v, put (del s from_key) to_key v)
    | none => (none, s)

end KvBackend

namespace RouteService

/-- Modelled from the spec: the table of the route service (spec §3, RouteEntry,
owned by the remote service; the service itself is not part of the embedded
file).  Each entry: table name, routing payload, deleted flag — spec §4.5:
`delete_route` "marks the entry deleted" but keeps the payload available. -/
def State (π : Type) : Type := List (String × π × Bool)

/-- The routing payload recorded for `name`, whether or not the entry has
been marked deleted. -/
def payloadOf {π : Type} : State π → String → Option π
  | [], _ => none
  | e :: es, name => if e.1 = name then some e.2.1 else payloadOf es name

/-- Mark every entry for `name` deleted, keeping its payload. -/
def markDeleted {π : Type} : State π → String → State π
  | [], _ => []
  | e :: es, name =>
    (if e.1 = name then (e.1, e.2.1, true) else e) :: markDeleted es name

/-- Modelled from the spec (§4.5, delete_route): "every call, including the
first, marks the entry deleted and returns the (same) routing payload";
`none` when the table never had routing information. -/
def delete_route {π : Type} (t : State π) (name : String) : Option π × State π :=
  match payloadOf t name with
  | some p => (some p, markDeleted t name)
  | none => (none, t)

/-- The state after `n` successive `delete_route name` calls. -/
def iterDelete {π : Type} (t : State π) (name : String) : Nat → State π
  | 0 => t
  | n + 1 => iterDelete (delete_route t name).2 name n

end RouteService

/-- Position of each protocol in the fixed order `MetaClient::start` visits
them (client.rs:162-178). -/
def protoIdx : Protocol → Nat
  | Protocol.heartbeat => 0
  | Protocol.router => 1
  | Protocol.store => 2
  | Protocol.lock => 3

/-- A client built with only the store protocol enabled
(`MetaClientBuilder::new(0, 0, Role::Datanode).enable_store().build()`). -/
def storeOnlyClient : MetaClient :=
  (((MetaClientBuilder.new 0 0 Role.datanode).enable_store').build).getD
    (MetaClient.new (0, 0))

/-- A client built with heartbeat and router enabled. -/
def hbRouterClient : MetaClient :=
  ((((MetaClientBuilder.new 0 0 Role.datanode).enable_heartbeat').enable_router').build).getD
    (MetaClient.new (0, 0))

/-- A per-protocol start outcome where the start of the router sub-client fails and
every other succeeds. -/
def routerFails : Protocol → Except MetaError Unit
  | Protocol.router => Except.error MetaError.transportError
  | _ => Except.ok ()

/-- A client built with only the store protocol enabled and identity
`(1, 2)` (`MetaClientBuilder::new(1, 2, Role::Datanode)`). -/
def storeWitnessClient : MetaClient :=
  (((MetaClientBuilder.new 1 2 Role.datanode).enable_store').build).getD
    (MetaClient.new (0, 0))

namespace KvBackend

theorem get_put_eq (s : KvState) (k v : Bytes) : get (put s k v) k = some v := by
  simp [get, put]

theorem get_del_eq (s : KvState) (k : Bytes) : get (del s k) k = none := by
  induction s with
  | nil => rfl
  | cons e es ih =>
    by_cases h : e.1 = k
    · simpa [del, h] using ih
    · simpa [get, del, h] using ih

theorem get_del_ne (s : KvState) (k k' : Bytes) (h : k' ≠ k) :
    get (del s k) k' = get s k' := by
  have hkk : ¬(k = k') := fun hk => h hk.symm
  induction s with
  | nil => rfl
  | cons e es ih =>
    by_cases he : e.1 = k
    · simp [get, del, he, hkk, ih]
    · by_cases he' : e.1 = k'
      · simp [get, del, he, he', h, hkk]
      · simp [get, del, he, he', ih]

theorem get_put_ne (s : KvState) (k k' v : Bytes) (h : k' ≠ k) :
    get (put s k v) k' = get s k' := by
  have hne : ¬(k = k') := fun hk => h hk.symm
  simpa [put, get, hne] using get_del_ne s k k' h

end KvBackend

namespace RouteService

theorem payloadOf_markDeleted {π : Type} (t : State π) (name name' : String) :
    payloadOf (markDeleted t name) name' = payloadOf t name' := by
  induction t with
  | nil => rfl
  | cons e es ih =>
    by_cases h : e.1 = name
    · simp [payloadOf, markDeleted, h, ih]
    · by_cases h' : e.1 = name'
      · have hne : ¬(name' = name) := h' ▸ h
        simp [payloadOf, markDeleted, h, h', hne]
      · simp [payloadOf, markDeleted, h, h', ih]

theorem payloadOf_delete_route {π : Type} (t : State π) (name name' : String) :
    payloadOf (delete_route t name).2 name' = payloadOf t name' := by
  unfold delete_route
  cases payloadOf t name with
  | none => rfl
  | some p => simpa using payloadOf_markDeleted t name name'

theorem payloadOf_iterDelete {π : Type} (t : State π) (name : String) (n : Nat) :
    payloadOf (iterDelete t name n) name = payloadOf t name := by
  induction n generalizing t with
  | zero => rfl
  | succ n ih =>
    calc payloadOf (iterDelete (delete_route t name).2 name n) name
        = payloadOf (delete_route t name).2 name := ih _
      _ = payloadOf t name := payloadOf_delete_route t name name

end RouteService

/-- Lemma: `startSub` on a skipped or successfully starting slot: the slot keeps its
sub-client (if any), now bound to `urls`. -/
theorem startSub_ok (sub : Option SubClient) (res : Except MetaError Unit)
    (urls : List String) (h : sub = none ∨ res = Except.ok ()) :
    startSub sub res urls
      = Except.ok (sub.map (fun s => { s with started := some urls })) := by
  cases sub with
  | none => rfl
  | some s =>
    rcases h with h | h
    · exact Option.noConfusion h
    · rw [h]; rfl

/-- Lemma: `startSub` on a present slot whose own start fails propagates the
error. -/
theorem startSub_error (s : SubClient) (e : MetaError) (urls : List String) :
    startSub (some s) (Except.error e) urls = Except.error e := rfl

/-- A successful `startSub` yields the input slot with its sub-client (if
any) bound to `urls`. -/
theorem startSub_shape {sub sub' : Option SubClient} {res : Except MetaError Unit}
    {urls : List String} (h : startSub sub res urls = Except.ok sub') :
    sub' = sub.map (fun s => { s with started := some urls }) := by
  cases sub with
  | none => exact (Except.ok.inj h).symm
  | some s =>
    cases res with
    | ok u => exact (Except.ok.inj h).symm
    | error e => exact Except.noConfusion h

/-- After `start`, every slot either kept its old contents (its own start
failed or was never reached) or holds its old sub-client bound to `urls`. -/
theorem start_sub_cases (c : MetaClient) (netRes : Protocol → Except MetaError Unit)
    (urls : List String) (p : Protocol) :
    ((c.start netRes urls).2).sub p = c.sub p
    ∨ ((c.start netRes urls).2).sub p
        = (c.sub p).map (fun s => { s with started := some urls }) := by
  cases hh : startSub c.heartbeat (netRes Protocol.heartbeat) urls with
  | error e => left; simp [MetaClient.start, hh]
  | ok hb =>
    obtain rfl := startSub_shape hh
    cases hr : startSub c.router (netRes Protocol.router) urls with
    | error e =>
      cases p with
      | heartbeat => right; simp [MetaClient.start, hh, hr, MetaClient.sub]
      | router => left; simp [MetaClient.start, hh, hr, MetaClient.sub]
      | store => left; simp [MetaClient.start, hh, hr, MetaClient.sub]
      | lock => left; simp [MetaClient.start, hh, hr, MetaClient.sub]
    | ok rb =>
      obtain rfl := startSub_shape hr
      cases hs : startSub c.store (netRes Protocol.store) urls with
      | error e =>
        cases p with
        | heartbeat => right; simp [MetaClient.start, hh, hr, hs, MetaClient.sub]
        | router => right; simp [MetaClient.start, hh, hr, hs, MetaClient.sub]
        | store => left; simp [MetaClient.start, hh, hr, hs, MetaClient.sub]
        | lock => left; simp [MetaClient.start, hh, hr, hs, MetaClient.sub]
      | ok sb =>
        obtain rfl := startSub_shape hs
        cases hl : startSub c.lock (netRes Protocol.lock) urls with
        | error e =>
          cases p with
          | heartbeat => right; simp [MetaClient.start, hh, hr, hs, hl, MetaClient.sub]
          | router => right; simp [MetaClient.start, hh, hr, hs, hl, MetaClient.sub]
          | store => right; simp [MetaClient.start, hh, hr, hs, hl, MetaClient.sub]
          | lock => left; simp [MetaClient.start, hh, hr, hs, hl, MetaClient.sub]
        | ok lb =>
          obtain rfl := startSub_shape hl
          cases p with
          | heartbeat => right; simp [MetaClient.start, hh, hr, hs, hl, MetaClient.sub]
          | router => right; simp [MetaClient.start, hh, hr, hs, hl, MetaClient.sub]
          | store => right; simp [MetaClient.start, hh, hr, hs, hl, MetaClient.sub]
          | lock => right; simp [MetaClient.start, hh, hr, hs, hl, MetaClient.sub]

/-- Lemma: `start` never touches the client identity. -/
theorem start_id (c : MetaClient) (netRes : Protocol → Except MetaError Unit)
    (urls : List String) : ((c.start netRes urls).2).id = c.id := by
  cases hh : startSub c.heartbeat (netRes Protocol.heartbeat) urls with
  | error e => simp [MetaClient.start, hh]
  | ok hb =>
    cases hr : startSub c.router (netRes Protocol.router) urls with
    | error e => simp [MetaClient.start, hh, hr]
    | ok rb =>
      cases hs : startSub c.store (netRes Protocol.store) urls with
      | error e => simp [MetaClient.start, hh, hr, hs]
      | ok sb =>
        cases hl : startSub c.lock (netRes Protocol.lock) urls with
        | error e => simp [MetaClient.start, hh, hr, hs, hl]
        | ok lb => simp [MetaClient.start, hh, hr, hs, hl]

/-- The accessor of each protocol inspects exactly its slot, with the `name`
string of `accessor_error_name` on the empty one. -/
theorem sub_accessor_eq (c : MetaClient) (p : Protocol) :
    c.sub_accessor p
      = (match c.sub p with
        | some s => Except.ok s
        | none => Except.error (MetaError.notStarted (accessor_error_name p))) := by
  cases p with
  | heartbeat =>
    cases hx : c.heartbeat <;>
      simp [MetaClient.sub_accessor, MetaClient.heartbeat_client, MetaClient.sub,
        accessor_error_name, hx]
  | router =>
    cases hx : c.router <;>
      simp [MetaClient.sub_accessor, MetaClient.router_client, MetaClient.sub,
        accessor_error_name, hx]
  | store =>
    cases hx : c.store <;>
      simp [MetaClient.sub_accessor, MetaClient.store_client, MetaClient.sub,
        accessor_error_name, hx]
  | lock =>
    cases hx : c.lock <;>
      simp [MetaClient.sub_accessor, MetaClient.lock_client, MetaClient.sub,
        accessor_error_name, hx]

/-- Claim C2: constructing a client with an empty activation set aborts
construction — for every identity and role, `build()` on a builder with no
`enable_*` invoked panics (embedded as `none`) and never returns a usable
`MetaClient`; with at least one protocol enabled, `build()` returns a
client. -/
theorem c2_build_aborts_on_empty_activation :
    (∀ (cluster_id member_id : Nat) (role : Role),
      (MetaClientBuilder.new cluster_id member_id role).build = none)
    ∧ (∀ b : MetaClientBuilder,
      b.build.isSome
        = (b.enable_heartbeat || b.enable_router || b.enable_store || b.enable_lock)) := by
  constructor
  · intro cluster_id member_id role; rfl
  · intro b
    rcases b with ⟨bid, brole, hb, hr, hs, hl, cm⟩
    cases hb <;> cases hr <;> cases hs <;> cases hl <;> cases cm <;> rfl

/-- Claim C8: the identity of the client is immutable — `MetaClientBuilder::new`
records `(cluster_id, member_id)`, every builder step keeps it, `build`
transfers it to the client, `start` never changes it, and `id()` (the `id`
projection) returns exactly that pair. -/
theorem c8_identity_immutable :
    (∀ (cluster_id member_id : Nat) (role : Role),
      (MetaClientBuilder.new cluster_id member_id role).id = (cluster_id, member_id))
    ∧ (∀ b : MetaClientBuilder,
        b.enable_heartbeat'.id = b.id ∧ b.enable_router'.id = b.id
        ∧ b.enable_store'.id = b.id ∧ b.enable_lock'.id = b.id
        ∧ ∀ mgr, (b.channel_manager' mgr).id = b.id)
    ∧ (∀ (b : MetaClientBuilder) (c : MetaClient), b.build = some c → c.id = b.id)
    ∧ (∀ (c : MetaClient) (netRes : Protocol → Except MetaError Unit)
        (urls : List String), ((c.start netRes urls).2).id = c.id) := by
  refine ⟨fun _ _ _ => rfl, fun b => ⟨rfl, rfl, rfl, rfl, fun _ => rfl⟩, ?_, ?_⟩
  · intro b c h
    rcases b with ⟨bid, brole, hb, hr, hs, hl, cm⟩
    cases hb <;> cases hr <;> cases hs <;> cases hl <;> cases cm <;>
      first
        | exact Option.noConfusion h
        | (rw [← Option.some.inj h]; rfl)
  · exact start_id

/-- Witness for C8: a concretely built client carries the pair given to the builder,
before and after `start`. -/
theorem c8_witness :
    (((MetaClientBuilder.new 1 2 Role.datanode).enable_store').build
        = some storeWitnessClient)
    ∧ storeWitnessClient.id = (1, 2)
    ∧ ((storeWitnessClient.start (fun _ => Except.ok ()) ["a"]).2).id = (1, 2) := by
  refine ⟨rfl, ?_, ?_⟩
  · exact (c8_identity_immutable.2.2.1
      ((MetaClientBuilder.new 1 2 Role.datanode).enable_store')
      storeWitnessClient rfl).trans rfl
  · exact (c8_identity_immutable.2.2.2 storeWitnessClient (fun _ => Except.ok ())
      ["a"]).trans ((c8_identity_immutable.2.2.1
        ((MetaClientBuilder.new 1 2 Role.datanode).enable_store')
        storeWitnessClient rfl).trans rfl)

/-- Claim C4: `start(urls)` starts exactly the activated sub-clients, each
against the same endpoint list (slots of non-activated protocols stay
empty, so no sub-client outside the activation set is started), and when
the start of every activated sub-client succeeds, `start` returns `Ok(())`. -/
theorem c4_start_starts_exactly_activated :
    ∀ (c : MetaClient) (netRes : Protocol → Except MetaError Unit) (urls : List String),
    (∀ p, c.activated p = true → netRes p = Except.ok ()) →
    (c.start netRes urls).1 = Except.ok ()
    ∧ ∀ p, ((c.start netRes urls).2).sub p
        = (c.sub p).map (fun s => { s with started := some urls }) := by
  intro c netRes urls h
  have h1 : startSub c.heartbeat (netRes Protocol.heartbeat) urls
      = Except.ok (c.heartbeat.map (fun s => { s with started := some urls })) := by
    apply startSub_ok
    cases hx : c.heartbeat with
    | none => exact Or.inl rfl
    | some x =>
      exact Or.inr (h Protocol.heartbeat
        (by simp [MetaClient.activated, MetaClient.sub, hx]))
  have h2 : startSub c.router (netRes Protocol.router) urls
      = Except.ok (c.router.map (fun s => { s with started := some urls })) := by
    apply startSub_ok
    cases hx : c.router with
    | none => exact Or.inl rfl
    | some x =>
      exact Or.inr (h Protocol.router
        (by simp [MetaClient.activated, MetaClient.sub, hx]))
  have h3 : startSub c.store (netRes Protocol.store) urls
      = Except.ok (c.store.map (fun s => { s with started := some urls })) := by
    apply startSub_ok
    cases hx : c.store with
    | none => exact Or.inl rfl
    | some x =>
      exact Or.inr (h Protocol.store
        (by simp [MetaClient.activated, MetaClient.sub, hx]))
  have h4 : startSub c.lock (netRes Protocol.lock) urls
      = Except.ok (c.lock.map (fun s => { s with started := some urls })) := by
    apply startSub_ok
    cases hx : c.lock with
    | none => exact Or.inl rfl
    | some x =>
      exact Or.inr (h Protocol.lock
        (by simp [MetaClient.activated, MetaClient.sub, hx]))
  refine ⟨?_, ?_⟩
  · simp [MetaClient.start, h1, h2, h3, h4]
  · intro p
    cases p <;> simp [MetaClient.start, MetaClient.sub, h1, h2, h3, h4]

/-- Witness for C4: starting a heartbeat+router client with every
sub-client start succeeding returns `Ok(())`, binds both activated
sub-clients to the endpoint list, and leaves the store slot empty. -/
theorem c4_witness :
    (hbRouterClient.start (fun _ => Except.ok ()) ["u1", "u2"]).1 = Except.ok ()
    ∧ ((hbRouterClient.start (fun _ => Except.ok ()) ["u1", "u2"]).2).sub
        Protocol.heartbeat
      = (hbRouterClient.sub Protocol.heartbeat).map
          (fun s => { s with started := some ["u1", "u2"] })
    ∧ ((hbRouterClient.start (fun _ => Except.ok ()) ["u1", "u2"]).2).sub Protocol.store
      = (hbRouterClient.sub Protocol.store).map
          (fun s => { s with started := some ["u1", "u2"] }) := by
  have h := c4_start_starts_exactly_activated hbRouterClient (fun _ => Except.ok ())
    ["u1", "u2"] (fun p _ => rfl)
  exact ⟨h.1, h.2 Protocol.heartbeat, h.2 Protocol.store⟩

/-- Claim C9: `start` visits sub-clients in the fixed order heartbeat,
router, store, lock and stops at the first failure with no rollback — it
returns that error, slots strictly earlier in the order hold their
sub-client started against `urls`, and the failing slot and all later
slots are exactly as they were before `start`. -/
theorem c9_start_stops_at_first_failure :
    ∀ (c : MetaClient) (netRes : Protocol → Except MetaError Unit) (urls : List String)
      (p : Protocol) (e : MetaError),
    c.activated p = true →
    netRes p = Except.error e →
    (∀ q, c.activated q = true → protoIdx q < protoIdx p → netRes q = Except.ok ()) →
    (c.start netRes urls).1 = Except.error e
    ∧ (∀ q, protoIdx q < protoIdx p →
        ((c.start netRes urls).2).sub q
          = (c.sub q).map (fun s => { s with started := some urls }))
    ∧ (∀ q, protoIdx p ≤ protoIdx q → ((c.start netRes urls).2).sub q = c.sub q) := by
  intro c netRes urls p e hact herr hok
  cases p with
  | heartbeat =>
    have hx : ∃ x, c.heartbeat = some x := by
      have h' : (c.heartbeat).isSome = true := hact
      exact Option.isSome_iff_exists.mp h'
    obtain ⟨x, hx⟩ := hx
    refine ⟨?_, ?_, ?_⟩
    · simp [MetaClient.start, hx, herr, startSub_error]
    · intro q hq; exact absurd hq (by cases q <;> simp [protoIdx])
    · intro q _
      cases q <;> simp [MetaClient.start, MetaClient.sub, hx, herr, startSub_error]
  | router =>
    have hx : ∃ x, c.router = some x := by
      have h' : (c.router).isSome = true := hact
      exact Option.isSome_iff_exists.mp h'
    obtain ⟨x, hx⟩ := hx
    have h1 : startSub c.heartbeat (netRes Protocol.heartbeat) urls
        = Except.ok (c.heartbeat.map (fun s => { s with started := some urls })) := by
      apply startSub_ok
      cases hy : c.heartbeat with
      | none => exact Or.inl rfl
      | some y =>
        exact Or.inr (hok Protocol.heartbeat
          (by simp [MetaClient.activated, MetaClient.sub, hy]) (by simp [protoIdx]))
    refine ⟨?_, ?_, ?_⟩
    · simp [MetaClient.start, h1, hx, herr, startSub_error]
    · intro q hq
      cases q with
      | heartbeat => simp [MetaClient.start, MetaClient.sub, h1, hx, herr, startSub_error]
      | router => exact absurd hq (by simp [protoIdx])
      | store => exact absurd hq (by simp [protoIdx])
      | lock => exact absurd hq (by simp [protoIdx])
    · intro q hq
      cases q with
      | heartbeat => exact absurd hq (by simp [protoIdx])
      | router => simp [MetaClient.start, MetaClient.sub, h1, hx, herr, startSub_error]
      | store => simp [MetaClient.start, MetaClient.sub, h1, hx, herr, startSub_error]
      | lock => simp [MetaClient.start, MetaClient.sub, h1, hx, herr, startSub_error]
  | store =>
    have hx : ∃ x, c.store = some x := by
      have h' : (c.store).isSome = true := hact
      exact Option.isSome_iff_exists.mp h'
    obtain ⟨x, hx⟩ := hx
    have h1 : startSub c.heartbeat (netRes Protocol.heartbeat) urls
        = Except.ok (c.heartbeat.map (fun s => { s with started := some urls })) := by
      apply startSub_ok
      cases hy : c.heartbeat with
      | none => exact Or.inl rfl
      | some y =>
        exact Or.inr (hok Protocol.heartbeat
          (by simp [MetaClient.activated, MetaClient.sub, hy]) (by simp [protoIdx]))
    have h2 : startSub c.router (netRes Protocol.router) urls
        = Except.ok (c.router.map (fun s => { s with started := some urls })) := by
      apply startSub_ok
      cases hy : c.router with
      | none => exact Or.inl rfl
      | some y =>
        exact Or.inr (hok Protocol.router
          (by simp [MetaClient.activated, MetaClient.sub, hy]) (by simp [protoIdx]))
    refine ⟨?_, ?_, ?_⟩
    · simp [MetaClient.start, h1, h2, hx, herr, startSub_error]
    · intro q hq
      cases q with
      | heartbeat => simp [MetaClient.start, MetaClient.sub, h1, h2, hx, herr, startSub_error]
      | router => simp [MetaClient.start, MetaClient.sub, h1, h2, hx, herr, startSub_error]
      | store => exact absurd hq (by simp [protoIdx])
      | lock => exact absurd hq (by simp [protoIdx])
    · intro q hq
      cases q with
      | heartbeat => exact absurd hq (by simp [protoIdx])
      | router => exact absurd hq (by simp [protoIdx])
      | store => simp [MetaClient.start, MetaClient.sub, h1, h2, hx, herr, startSub_error]
      | lock => simp [MetaClient.start, MetaClient.sub, h1, h2, hx, herr, startSub_error]
  | lock =>
    have hx : ∃ x, c.lock = some x := by
      have h' : (c.lock).isSome = true := hact
      exact Option.isSome_iff_exists.mp h'
    obtain ⟨x, hx⟩ := hx
    have h1 : startSub c.heartbeat (netRes Protocol.heartbeat) urls
        = Except.ok (c.heartbeat.map (fun s => { s with started := some urls })) := by
      apply startSub_ok
      cases hy : c.heartbeat with
      | none => exact Or.inl rfl
      | some y =>
        exact Or.inr (hok Protocol.heartbeat
          (by simp [MetaClient.activated, MetaClient.sub, hy]) (by simp [protoIdx]))
    have h2 : startSub c.router (netRes Protocol.router) urls
        = Except.ok (c.router.map (fun s => { s with started := some urls })) := by
      apply startSub_ok
      cases hy : c.router with
      | none => exact Or.inl rfl
      | some y =>
        exact Or.inr (hok Protocol.router
          (by simp [MetaClient.activated, MetaClient.sub, hy]) (by simp [protoIdx]))
    have h3 : startSub c.store (netRes Protocol.store) urls
        = Except.ok (c.store.map (fun s => { s with started := some urls })) := by
      apply startSub_ok
      cases hy : c.store with
      | none => exact Or.inl rfl
      | some y =>
        exact Or.inr (hok Protocol.store
          (by simp [MetaClient.activated, MetaClient.sub, hy]) (by simp [protoIdx]))
    refine ⟨?_, ?_, ?_⟩
    · simp [MetaClient.start, h1, h2, h3, hx, herr, startSub_error]
    · intro q hq
      cases q with
      | heartbeat =>
        simp [MetaClient.start, MetaClient.sub, h1, h2, h3, hx, herr, startSub_error]
      | router => simp [MetaClient.start, MetaClient.sub, h1, h2, h3, hx, herr, startSub_error]
      | store => simp [MetaClient.start, MetaClient.sub, h1, h2, h3, hx, herr, startSub_error]
      | lock => exact absurd hq (by simp [protoIdx])
    · intro q hq
      cases q with
      | heartbeat => exact absurd hq (by simp [protoIdx])
      | router => exact absurd hq (by simp [protoIdx])
      | store => exact absurd hq (by simp [protoIdx])
      | lock => simp [MetaClient.start, MetaClient.sub, h1, h2, h3, hx, herr, startSub_error]

/-- Witness for C9: on a heartbeat+router client whose router start fails,
`start` returns the transport error of the router, the heartbeat sub-client is
started against the endpoint list, and the router slot is unchanged. -/
theorem c9_witness :
    (hbRouterClient.start routerFails ["u1"]).1 = Except.error MetaError.transportError
    ∧ ((hbRouterClient.start routerFails ["u1"]).2).sub Protocol.heartbeat
      = (hbRouterClient.sub Protocol.heartbeat).map
          (fun s => { s with started := some ["u1"] })
    ∧ ((hbRouterClient.start routerFails ["u1"]).2).sub Protocol.router
      = hbRouterClient.sub Protocol.router := by
  have h := c9_start_stops_at_first_failure hbRouterClient routerFails ["u1"]
    Protocol.router MetaError.transportError rfl rfl
    (fun q _ hq => by
      cases q with
      | heartbeat => rfl
      | router => exact absurd hq (by simp [protoIdx])
      | store => exact absurd hq (by simp [protoIdx])
      | lock => exact absurd hq (by simp [protoIdx]))
  exact ⟨h.1, h.2.1 Protocol.heartbeat (by simp [protoIdx]),
    h.2.2 Protocol.router (by simp [protoIdx])⟩

/-- Claim C10: the sub-client accessors depend only on the activation set,
never on started-ness — the accessor of an activated protocol returns `Ok` both
before and after `start()` (whatever the start outcomes), and the
accessor of a non-activated protocol returns a `NotStarted` error both before
and after `start()`. -/
theorem c10_accessors_depend_only_on_activation :
    ∀ (c : MetaClient) (netRes : Protocol → Except MetaError Unit)
      (urls : List String) (p : Protocol),
    isOk (c.sub_accessor p) = c.activated p
    ∧ isOk (((c.start netRes urls).2).sub_accessor p) = c.activated p
    ∧ (c.activated p = false →
        c.sub_accessor p = Except.error (MetaError.notStarted (accessor_error_name p))
        ∧ ((c.start netRes urls).2).sub_accessor p
            = Except.error (MetaError.notStarted (accessor_error_name p))) := by
  intro c netRes urls p
  have hiso : (((c.start netRes urls).2).sub p).isSome = (c.sub p).isSome := by
    rcases start_sub_cases c netRes urls p with h | h <;> simp [h]
  refine ⟨?_, ?_, ?_⟩
  · rw [sub_accessor_eq]
    cases hx : c.sub p <;> simp [isOk, MetaClient.activated, hx]
  · rw [sub_accessor_eq]
    cases hx : ((c.start netRes urls).2).sub p with
    | none =>
      have h0 : (c.sub p).isSome = false := by rw [← hiso, hx]; rfl
      simp [isOk, MetaClient.activated, h0]
    | some s =>
      have h1 : (c.sub p).isSome = true := by rw [← hiso, hx]; rfl
      simp [isOk, MetaClient.activated, h1]
  · intro hfalse
    have hnone : c.sub p = none := by
      cases hx : c.sub p with
      | none => rfl
      | some s =>
        rw [MetaClient.activated, hx] at hfalse
        exact absurd hfalse (by simp)
    have hnone2 : ((c.start netRes urls).2).sub p = none := by
      cases hx : ((c.start netRes urls).2).sub p with
      | none => rfl
      | some s =>
        rw [hx, hnone] at hiso
        exact absurd hiso (by simp)
    constructor
    · rw [sub_accessor_eq, hnone]
    · rw [sub_accessor_eq, hnone2]

/-- Witness for C10: on a store-only client, the store accessor is `Ok` and
the heartbeat accessor fails with `NotStarted` both before and after a
fully successful `start`. -/
theorem c10_witness :
    isOk (storeOnlyClient.sub_accessor Protocol.store) = true
    ∧ isOk (((storeOnlyClient.start (fun _ => Except.ok ()) ["u1"]).2).sub_accessor
        Protocol.store) = true
    ∧ storeOnlyClient.sub_accessor Protocol.heartbeat
        = Except.error (MetaError.notStarted "heartbeat_client")
    ∧ ((storeOnlyClient.start (fun _ => Except.ok ()) ["u1"]).2).sub_accessor
        Protocol.heartbeat
      = Except.error (MetaError.notStarted "heartbeat_client") := by
  have hs := c10_accessors_depend_only_on_activation storeOnlyClient
    (fun _ => Except.ok ()) ["u1"] Protocol.store
  have hh := (c10_accessors_depend_only_on_activation storeOnlyClient
    (fun _ => Except.ok ()) ["u1"] Protocol.heartbeat).2.2 rfl
  exact ⟨hs.1.trans rfl, hs.2.1.trans rfl, hh.1, hh.2⟩

/-- Claim C1 (failing-input evaluation): on a client whose router protocol
was not activated, the router operation `route` fails with no network
access but the `NotStarted` error carries the name `"store_client"`
(client.rs:347), which does not identify the router protocol;
`delete_route` behaves the same. -/
theorem c1_router_notstarted_misnamed :
    storeOnlyClient.activated Protocol.router = false
    ∧ storeOnlyClient.route ((fun _ => Except.ok ()) : Unit → Except MetaError Unit) ()
      = (Except.error (MetaError.notStarted "store_client"), false)
    ∧ storeOnlyClient.delete_route
        ((fun _ => Except.ok ()) : Unit → Except MetaError Unit) ()
      = (Except.error (MetaError.notStarted "store_client"), false)
    ∧ accessor_error_name Protocol.router = accessor_error_name Protocol.store := by
  exact ⟨rfl, rfl, rfl, rfl⟩

/-- Claim C3 (counterexample): `create_route` converts the request before
resolving the router sub-client, so on a router-inactive client a
non-convertible `CreateRequest` fails with `ConversionError`, not
`NotStarted`, refuting "never with ConversionError". -/
theorem c3_counterexample :
    storeOnlyClient.activated Protocol.router = false
    ∧ storeOnlyClient.create_route (fun _ : Unit => (none : Option Unit))
        ((fun _ => Except.ok ()) : Unit → Except MetaError Unit) ()
      = (Except.error MetaError.conversionError, false) := by
  exact ⟨rfl, rfl⟩

/-- Claim C3 (amended): in `create_route` the request conversion runs
before sub-client resolution — on a client whose router protocol was not
activated, a convertible request fails with `NotStarted` (and no network
access), while a non-convertible request fails with `ConversionError` (and
no network access). -/
theorem c3_amended_create_route_converts_first :
    ∀ {ρ ω σ : Type} (c : MetaClient) (convReq : ρ → Option ω)
      (rpc : ω → Except MetaError σ) (req : ρ),
    c.router = none →
    (convReq req = none →
      c.create_route convReq rpc req = (Except.error MetaError.conversionError, false))
    ∧ (∀ w, convReq req = some w →
      c.create_route convReq rpc req
        = (Except.error (MetaError.notStarted "store_client"), false)) := by
  intro ρ ω σ c convReq rpc req hr
  constructor
  · intro hc
    simp [MetaClient.create_route, hc]
  · intro w hc
    simp [MetaClient.create_route, hc, dispatch, MetaClient.router_client, hr]

/-- Witness for C3 (amended): both conversion outcomes on the concrete
store-only client. -/
theorem c3_witness :
    storeOnlyClient.create_route (fun _ : Unit => (none : Option Unit))
        ((fun _ => Except.ok ()) : Unit → Except MetaError Unit) ()
      = (Except.error MetaError.conversionError, false)
    ∧ storeOnlyClient.create_route (fun _ : Unit => some ())
        ((fun _ => Except.ok ()) : Unit → Except MetaError Unit) ()
      = (Except.error (MetaError.notStarted "store_client"), false) := by
  refine ⟨?_, ?_⟩
  · exact (c3_amended_create_route_converts_first storeOnlyClient
      (fun _ : Unit => (none : Option Unit))
      ((fun _ => Except.ok ()) : Unit → Except MetaError Unit) () rfl).1 rfl
  · exact (c3_amended_create_route_converts_first storeOnlyClient
      (fun _ : Unit => some ())
      ((fun _ => Except.ok ()) : Unit → Except MetaError Unit) () rfl).2 () rfl

/-- Claim C5: CompareAndPut value-mismatch is a normal result, not an
error — on mismatch the outcome has `success = false`, reports the actual
current value (none if the key is absent), and leaves the store unchanged;
it succeeds (`success = true`, reporting the previous value if one
existed, and writing the new value) iff the stored value equals the
expected one, absence counting as expected `none`. -/
theorem c5_compare_and_put_mismatch_is_normal :
    ∀ (s : KvBackend.KvState) (k : KvBackend.Bytes) (expect : Option KvBackend.Bytes)
      (v : KvBackend.Bytes),
    ((KvBackend.compare_and_put s k expect v).1.success = true
      ↔ KvBackend.get s k = expect)
    ∧ (KvBackend.get s k ≠ expect →
        (KvBackend.compare_and_put s k expect v).1.success = false
        ∧ (KvBackend.compare_and_put s k expect v).1.prev_kv = KvBackend.get s k
        ∧ (KvBackend.compare_and_put s k expect v).2 = s)
    ∧ (KvBackend.get s k = expect →
        (KvBackend.compare_and_put s k expect v).1.success = true
        ∧ (KvBackend.compare_and_put s k expect v).1.prev_kv = KvBackend.get s k
        ∧ (KvBackend.compare_and_put s k expect v).2 = KvBackend.put s k v) := by
  intro s k expect v
  by_cases h : KvBackend.get s k = expect
  · simp [KvBackend.compare_and_put, h]
  · simp [KvBackend.compare_and_put, h]

/-- Witness for C5: on the store `{[0] ↦ [1]}`, a CompareAndPut expecting
`[9]` fails, reports the actual value `[1]`, and changes nothing; one
expecting the stored `[1]` succeeds. -/
theorem c5_witness :
    (KvBackend.compare_and_put [([0], [1])] [0] (some [9]) [2]).1.success = false
    ∧ (KvBackend.compare_and_put [([0], [1])] [0] (some [9]) [2]).1.prev_kv = some [1]
    ∧ (KvBackend.compare_and_put [([0], [1])] [0] (some [9]) [2]).2 = [([0], [1])]
    ∧ (KvBackend.compare_and_put [([0], [1])] [0] (some [1]) [2]).1.success = true := by
  have hA := (c5_compare_and_put_mismatch_is_normal [([0], [1])] [0] (some [9]) [2]).2.1
    (by decide)
  have hB := (c5_compare_and_put_mismatch_is_normal [([0], [1])] [0] (some [1]) [2]).2.2
    (by decide)
  exact ⟨hA.1, hA.2.1.trans (by decide), hA.2.2, hB.1⟩

/-- Claim C6: MoveValue is an atomic relocation with destination-wins
semantics — if `to_key` holds a value it is returned and the store (hence
both keys) is unchanged; else if `from_key` holds a value it is moved to
`to_key`, `from_key` is cleared, and the moved value is returned; if
neither holds a value the result is none and the store unchanged. -/
theorem c6_move_value_destination_wins :
    ∀ (s : KvBackend.KvState) (from_key to_key : KvBackend.Bytes),
    (∀ v, KvBackend.get s to_key = some v →
      KvBackend.move_value s from_key to_key = (some v, s))
    ∧ (∀ v, KvBackend.get s to_key = none → KvBackend.get s from_key = some v →
      (KvBackend.move_value s from_key to_key).1 = some v
      ∧ KvBackend.get (KvBackend.move_value s from_key to_key).2 to_key = some v
      ∧ KvBackend.get (KvBackend.move_value s from_key to_key).2 from_key = none)
    ∧ (KvBackend.get s to_key = none → KvBackend.get s from_key = none →
      KvBackend.move_value s from_key to_key = (none, s)) := by
  intro s from_key to_key
  refine ⟨?_, ?_, ?_⟩
  · intro v hv
    simp [KvBackend.move_value, hv]
  · intro v ht hf
    have hne : from_key ≠ to_key := by
      intro h
      rw [h, ht] at hf
      exact Option.noConfusion hf
    refine ⟨?_, ?_, ?_⟩
    · simp [KvBackend.move_value, ht, hf]
    · simp [KvBackend.move_value, ht, hf, KvBackend.get_put_eq]
    · simp only [KvBackend.move_value, ht, hf]
      rw [KvBackend.get_put_ne _ _ _ _ hne]
      exact KvBackend.get_del_eq s from_key
  · intro ht hf
    simp [KvBackend.move_value, ht, hf]

/-- Witness for C6: all three MoveValue cases on concrete stores — occupied
destination, move from source, and both keys absent. -/
theorem c6_witness :
    KvBackend.move_value [([1], [10]), ([2], [20])] [1] [2]
      = (some [20], [([1], [10]), ([2], [20])])
    ∧ (KvBackend.move_value [([1], [10])] [1] [2]).1 = some [10]
    ∧ KvBackend.get (KvBackend.move_value [([1], [10])] [1] [2]).2 [2] = some [10]
    ∧ KvBackend.get (KvBackend.move_value [([1], [10])] [1] [2]).2 [1] = none
    ∧ KvBackend.move_value ([] : KvBackend.KvState) [1] [2] = (none, []) := by
  have hA := (c6_move_value_destination_wins [([1], [10]), ([2], [20])] [1] [2]).1
    [20] (by decide)
  have hB := (c6_move_value_destination_wins [([1], [10])] [1] [2]).2.1
    [10] (by decide) (by decide)
  have hC := (c6_move_value_destination_wins ([] : KvBackend.KvState) [1] [2]).2.2
    rfl rfl
  exact ⟨hA, hB.1, hB.2.1, hB.2.2, hC⟩

/-- Claim C7: `delete_route` is idempotent — for every table that has
routing information, the call after any number `n` of previous deletions
(including `n = 0`, the first call) still succeeds and returns the same
previously valid routing payload. -/
theorem c7_delete_route_idempotent :
    ∀ (π : Type) (t : RouteService.State π) (name : String) (payload : π) (n : Nat),
    RouteService.payloadOf t name = some payload →
    (RouteService.delete_route (RouteService.iterDelete t name n) name).1
      = some payload := by
  intro π t name payload n h
  have hp : RouteService.payloadOf (RouteService.iterDelete t name n) name
      = some payload := by
    rw [RouteService.payloadOf_iterDelete, h]
  simp [RouteService.delete_route, hp]

/-- Witness for C7: with routing info `7` recorded for table `t`, the
first, second and third `delete_route` calls all return it. -/
theorem c7_witness :
    (RouteService.delete_route
      (RouteService.iterDelete [("t", 7, false)] "t" 0) "t").1 = some 7
    ∧ (RouteService.delete_route
        (RouteService.iterDelete [("t", 7, false)] "t" 1) "t").1 = some 7
    ∧ (RouteService.delete_route
        (RouteService.iterDelete [("t", 7, false)] "t" 2) "t").1 = some 7 := by
  exact ⟨c7_delete_route_idempotent Nat [("t", 7, false)] "t" 7 0 (by decide),
    c7_delete_route_idempotent Nat [("t", 7, false)] "t" 7 1 (by decide),
    c7_delete_route_idempotent Nat [("t", 7, false)] "t" 7 2 (by decide)⟩

end MetaClientSpec
